import Mathlib

/-!
Verification development for the AI_Genie_v2 chunk scheduling, state
derivation, retry and verification engine, together with the control-plane
browser code from `ai_genie_ui`.

Pure functions present in the JavaScript sources (`escapeHtml`, `statusPill`,
the job-submission payload builder) are translated directly, with strings
embedded as lists of characters.  Engine components whose implementation is
not among the sources (the REST control plane `server.py`: `PartitionJob`,
the State Derivation Engine, the Verification Pipeline, the Retry/Resend
Controller, `SubmitJob`, `GetJob`) are modelled from the design
specification; every such definition is marked `Modelled from the spec:` in
its doc comment.
-/

namespace AIGenie

/-- Ceiling division on naturals: the least `k` with `a ≤ k * b` when `0 < b`. -/
def ceilDiv (a b : ℕ) : ℕ := (a + b - 1) / b

/-- Modelled from the spec: the boundary offset of chunk `i` when a range of
length `len` is split into `n` balanced chunks.  With `q = len / n` and
`r = len % n`, the first `r` chunks hold `q + 1` items and the rest hold `q`,
so chunk `i` starts at offset `i * q + min i r`. -/
def chunkOffset (len n i : ℕ) : ℕ := i * (len / n) + min i (len % n)

/-- Modelled from the spec: the list of `n` contiguous sub-ranges of the
half-open range `[s, e)` produced by the balanced partition of §4.1. -/
def partitionRanges (s e : ℤ) (n : ℕ) : List (ℤ × ℤ) :=
  (List.range n).map (fun i =>
    (s + chunkOffset (e - s).toNat n i, s + chunkOffset (e - s).toNat n (i + 1)))

/-- Modelled from the spec: the synchronous submission failures of §6/§7. -/
inductive SubmitError
  | invalidPartition
  | duplicateJobId
  deriving DecidableEq, Repr

/-- Modelled from the spec: `PartitionJob(range, num_chunks)` of §4.1 — fails
with `InvalidPartition` when `num_chunks ≤ 0` or `num_chunks > len(range)`,
otherwise returns the balanced partition. -/
def PartitionJob (s e : ℤ) (numChunks : ℤ) : Except SubmitError (List (ℤ × ℤ)) :=
  if numChunks ≤ 0 ∨ (e - s) < numChunks then Except.error SubmitError.invalidPartition
  else Except.ok (partitionRanges s e numChunks.toNat)

theorem chunkOffset_zero (len n : ℕ) : chunkOffset len n 0 = 0 := by
  simp [chunkOffset]

theorem chunkOffset_self (len n : ℕ) (hn : 0 < n) : chunkOffset len n n = len := by
  unfold chunkOffset
  rw [Nat.min_eq_right (le_of_lt (Nat.mod_lt len hn))]
  exact Nat.div_add_mod len n

theorem chunkOffset_succ_of_lt (len n i : ℕ) (h : i < len % n) :
    chunkOffset len n (i + 1) = chunkOffset len n i + (len / n + 1) := by
  unfold chunkOffset
  rw [Nat.min_eq_left (le_of_lt h), Nat.min_eq_left h]
  have h2 : (i + 1) * (len / n) = i * (len / n) + len / n := by ring
  omega

theorem chunkOffset_succ_of_ge (len n i : ℕ) (h : len % n ≤ i) :
    chunkOffset len n (i + 1) = chunkOffset len n i + len / n := by
  unfold chunkOffset
  rw [Nat.min_eq_right h, Nat.min_eq_right (le_trans h (Nat.le_succ i))]
  ring

theorem ceilDiv_of_mod_pos (len n : ℕ) (hn : 0 < n) (hr : 0 < len % n) :
    ceilDiv len n = len / n + 1 := by
  have hdm := Nat.div_add_mod len n
  have hlt := Nat.mod_lt len hn
  unfold ceilDiv
  have h1 : len + n - 1 = n * (len / n + 1) + (len % n - 1) := by
    have h2 : n * (len / n + 1) = n * (len / n) + n := by ring
    omega
  rw [h1, Nat.mul_add_div hn, Nat.div_eq_of_lt (show len % n - 1 < n by omega)]

theorem partitionRanges_length (s e : ℤ) (n : ℕ) :
    (partitionRanges s e n).length = n := by
  simp [partitionRanges]

theorem partitionRanges_get (s e : ℤ) (n i : ℕ) (hi : i < (partitionRanges s e n).length) :
    (partitionRanges s e n).get ⟨i, hi⟩ =
      (s + chunkOffset (e - s).toNat n i, s + chunkOffset (e - s).toNat n (i + 1)) := by
  simp [partitionRanges]

theorem range_map_sum_sub (f : ℕ → ℤ) (n : ℕ) :
    ((List.range n).map (fun i => f (i + 1) - f i)).sum = f n - f 0 := by
  induction n with
  | zero => simp
  | succ k ih =>
    rw [List.range_succ, List.map_append, List.sum_append, ih]
    simp only [List.map_cons, List.map_nil, List.sum_cons, List.sum_nil, add_zero]
    ring

/-- C1: for every half-open range `[s, e)` and every `num_chunks` with
`1 ≤ num_chunks ≤ len(range)`, `PartitionJob` returns exactly `num_chunks`
contiguous sub-ranges, the first `len mod num_chunks` of size
`⌈len / num_chunks⌉` and the rest of size `⌊len / num_chunks⌋`; consecutive
sub-ranges meet (no gap, no overlap), the first starts at `s`, the last ends
at `e`, and the lengths sum to `len(range)`; in particular range `[0, 10)`
with `num_chunks = 3` yields `[0,4), [4,7), [7,10)`. -/
theorem C1_partitionJob_balanced (s e numChunks : ℤ)
    (h1 : 1 ≤ numChunks) (h2 : numChunks ≤ e - s) :
    ∃ L, PartitionJob s e numChunks = Except.ok L ∧
      L.length = numChunks.toNat ∧
      (∀ i, ∀ hi : i < L.length, i < (e - s).toNat % numChunks.toNat →
        (L.get ⟨i, hi⟩).2 - (L.get ⟨i, hi⟩).1 =
          (ceilDiv (e - s).toNat numChunks.toNat : ℤ)) ∧
      (∀ i, ∀ hi : i < L.length, (e - s).toNat % numChunks.toNat ≤ i →
        (L.get ⟨i, hi⟩).2 - (L.get ⟨i, hi⟩).1 =
          ((e - s).toNat / numChunks.toNat : ℕ)) ∧
      (∀ i, ∀ hi : i + 1 < L.length,
        (L.get ⟨i, Nat.lt_of_succ_lt hi⟩).2 = (L.get ⟨i + 1, hi⟩).1) ∧
      (∀ h0 : 0 < L.length, (L.get ⟨0, h0⟩).1 = s) ∧
      (∀ h0 : 0 < L.length,
        (L.get ⟨L.length - 1, Nat.sub_lt h0 Nat.one_pos⟩).2 = e) ∧
      (L.map (fun p => p.2 - p.1)).sum = e - s ∧
      PartitionJob 0 10 3 = Except.ok [(0, 4), (4, 7), (7, 10)] := by
  have hno : ¬(numChunks ≤ 0 ∨ (e - s) < numChunks) := by omega
  have hnpos : 0 < numChunks.toNat := by omega
  have hlenn : numChunks.toNat ≤ (e - s).toNat := by omega
  have hcast : ((e - s).toNat : ℤ) = e - s := by omega
  refine ⟨partitionRanges s e numChunks.toNat, ?_, partitionRanges_length s e _,
    ?_, ?_, ?_, ?_, ?_, ?_, rfl⟩
  · unfold PartitionJob
    rw [if_neg hno]
  · intro i hi hir
    rw [partitionRanges_get, chunkOffset_succ_of_lt _ _ _ hir,
      ceilDiv_of_mod_pos _ _ hnpos (by omega)]
    push_cast
    ring
  · intro i hi hir
    rw [partitionRanges_get, chunkOffset_succ_of_ge _ _ _ hir]
    push_cast
    ring
  · intro i hi
    rw [partitionRanges_get, partitionRanges_get]
  · intro h0
    rw [partitionRanges_get, chunkOffset_zero]
    simp
  · intro h0
    rw [partitionRanges_get]
    have hL : (partitionRanges s e numChunks.toNat).length = numChunks.toNat :=
      partitionRanges_length s e _
    have hidx : (partitionRanges s e numChunks.toNat).length - 1 + 1 = numChunks.toNat := by
      omega
    rw [hidx, chunkOffset_self _ _ hnpos]
    omega
  · unfold partitionRanges
    rw [List.map_map]
    have htel := range_map_sum_sub
      (fun i => s + (chunkOffset (e - s).toNat numChunks.toNat i : ℤ)) numChunks.toNat
    simp only [Function.comp_def] at htel ⊢
    rw [htel, chunkOffset_self _ _ hnpos, chunkOffset_zero]
    push_cast
    omega

/-- Witness for C1: the theorem applied at the concrete scenario
`range = [0, 10)`, `num_chunks = 3`. -/
theorem C1_partitionJob_balanced_witness :
    ∃ L, PartitionJob 0 10 3 = Except.ok L ∧ L.length = (3 : ℤ).toNat := by
  obtain ⟨L, hok, hlen, -⟩ := C1_partitionJob_balanced 0 10 3 (by decide) (by decide)
  exact ⟨L, hok, hlen⟩

/-- Modelled from the spec: the server-side lifecycle code of a raw execution
record (§4.2; the README maps it to `result.server_state`). -/
inductive Lifecycle
  | unsent
  | inProgress
  | over
  deriving DecidableEq, Repr

/-- Modelled from the spec: the substrate-reported outcome code of a raw
execution record (§4.2; `result.outcome` in the README). -/
inductive Outcome
  | success
  | error
  | timeout
  | other
  deriving DecidableEq, Repr

/-- Modelled from the spec: the optional validation code of a raw execution
record (§4.2; `result.validate_state` in the README, present only when
validation is required). -/
inductive Validation
  | valid
  | invalid
  | pending
  deriving DecidableEq, Repr

/-- Modelled from the spec: one of the four normalized chunk lifecycle
states. -/
inductive ChunkState
  | queued
  | running
  | completed
  | failed
  deriving DecidableEq, Repr

/-- Modelled from the spec: a raw execution record as consumed by the State
Derivation Engine; `validation = none` models a chunk whose validation is
not required. -/
structure RawRecord where
  lifecycle : Lifecycle
  outcome : Outcome
  validation : Option Validation
  deriving DecidableEq, Repr

/-- Modelled from the spec: the State Derivation Engine of §4.2, a pure
decision table from a raw execution record to a normalized chunk state. -/
def deriveState (r : RawRecord) : ChunkState :=
  match r.lifecycle with
  | Lifecycle.unsent => ChunkState.queued
  | Lifecycle.inProgress => ChunkState.running
  | Lifecycle.over =>
    match r.outcome with
    | Outcome.success =>
      match r.validation with
      | none => ChunkState.completed
      | some Validation.valid => ChunkState.completed
      | some Validation.invalid => ChunkState.failed
      | some Validation.pending => ChunkState.running
    | _ => ChunkState.failed

/-- C2: the State Derivation Engine is a deterministic total function
following the decision table: `unsent` maps to `queued`; `in-progress` maps
to `running`; `over`/`success` maps to `completed` when validation is valid
or not required, to `failed` when validation is invalid, and to `running`
when validation is pending; `over` with any non-success outcome maps to
`failed`; evaluating the same record twice yields the same state. -/
theorem C2_deriveState_table :
    (∀ o v, deriveState ⟨Lifecycle.unsent, o, v⟩ = ChunkState.queued) ∧
    (∀ o v, deriveState ⟨Lifecycle.inProgress, o, v⟩ = ChunkState.running) ∧
    (∀ v, v = none ∨ v = some Validation.valid →
      deriveState ⟨Lifecycle.over, Outcome.success, v⟩ = ChunkState.completed) ∧
    deriveState ⟨Lifecycle.over, Outcome.success, some Validation.invalid⟩ =
      ChunkState.failed ∧
    deriveState ⟨Lifecycle.over, Outcome.success, some Validation.pending⟩ =
      ChunkState.running ∧
    (∀ o v, o ≠ Outcome.success →
      deriveState ⟨Lifecycle.over, o, v⟩ = ChunkState.failed) ∧
    (∀ r : RawRecord, deriveState r = deriveState r) := by
  refine ⟨fun o v => rfl, fun o v => rfl, ?_, rfl, rfl, ?_, fun r => rfl⟩
  · rintro v (rfl | rfl) <;> rfl
  · rintro o v ho
    cases o with
    | success => exact absurd rfl ho
    | error => rfl
    | timeout => rfl
    | other => rfl

/-- Witness for C2: the table applied at concrete records with a pending
validation and a timeout outcome. -/
theorem C2_deriveState_table_witness :
    deriveState ⟨Lifecycle.over, Outcome.success, some Validation.valid⟩ =
      ChunkState.completed ∧
    deriveState ⟨Lifecycle.over, Outcome.timeout, none⟩ = ChunkState.failed := by
  exact ⟨C2_deriveState_table.2.2.1 (some Validation.valid) (Or.inr rfl),
    C2_deriveState_table.2.2.2.2.2.1 Outcome.timeout none (by decide)⟩

/-- Modelled from the spec: the per-chunk data the job aggregate reads — the
chunk's current normalized status and its attempt count. -/
structure ChunkSnapshot where
  status : ChunkState
  attemptCount : ℕ
  deriving DecidableEq, Repr

/-- Modelled from the spec: a chunk is terminally failed when its status is
`failed` and its attempt budget is exhausted (`attempt_count ≥ max_attempts`). -/
def terminallyFailed (maxAttempts : ℕ) (c : ChunkSnapshot) : Bool :=
  decide (c.status = ChunkState.failed) && decide (maxAttempts ≤ c.attemptCount)

/-- Modelled from the spec: the job-level status aggregate of §4.2 — `failed`
if any chunk is terminally failed and exhausted; else `completed` if all
chunks are completed; else `running` if any chunk is running; else `queued`.
It is a function of the chunk snapshots alone: no independent storage. -/
def jobStatus (maxAttempts : ℕ) (cs : List ChunkSnapshot) : ChunkState :=
  if cs.any (terminallyFailed maxAttempts) then ChunkState.failed
  else if cs.all (fun c => decide (c.status = ChunkState.completed)) then
    ChunkState.completed
  else if cs.any (fun c => decide (c.status = ChunkState.running)) then
    ChunkState.running
  else ChunkState.queued

/-- C3: the job-level status is the stated pure aggregate of the chunk
snapshots: `failed` when some chunk is terminally failed with its budget
exhausted; otherwise `completed` when all chunks are completed; otherwise
`running` when some chunk is running; otherwise `queued`. -/
theorem C3_jobStatus_aggregate (maxAttempts : ℕ) (cs : List ChunkSnapshot) :
    ((∃ c ∈ cs, c.status = ChunkState.failed ∧ maxAttempts ≤ c.attemptCount) →
      jobStatus maxAttempts cs = ChunkState.failed) ∧
    ((¬∃ c ∈ cs, c.status = ChunkState.failed ∧ maxAttempts ≤ c.attemptCount) →
      (∀ c ∈ cs, c.status = ChunkState.completed) →
      jobStatus maxAttempts cs = ChunkState.completed) ∧
    ((¬∃ c ∈ cs, c.status = ChunkState.failed ∧ maxAttempts ≤ c.attemptCount) →
      (¬∀ c ∈ cs, c.status = ChunkState.completed) →
      (∃ c ∈ cs, c.status = ChunkState.running) →
      jobStatus maxAttempts cs = ChunkState.running) ∧
    ((¬∃ c ∈ cs, c.status = ChunkState.failed ∧ maxAttempts ≤ c.attemptCount) →
      (¬∀ c ∈ cs, c.status = ChunkState.completed) →
      (¬∃ c ∈ cs, c.status = ChunkState.running) →
      jobStatus maxAttempts cs = ChunkState.queued) := by
  have hany : cs.any (terminallyFailed maxAttempts) = true ↔
      ∃ c ∈ cs, c.status = ChunkState.failed ∧ maxAttempts ≤ c.attemptCount := by
    simp [List.any_eq_true, terminallyFailed]
  have hall : cs.all (fun c => decide (c.status = ChunkState.completed)) = true ↔
      ∀ c ∈ cs, c.status = ChunkState.completed := by
    simp [List.all_eq_true]
  have hrun : cs.any (fun c => decide (c.status = ChunkState.running)) = true ↔
      ∃ c ∈ cs, c.status = ChunkState.running := by
    simp [List.any_eq_true]
  refine ⟨fun h => ?_, fun h hc => ?_, fun h hc hr => ?_, fun h hc hr => ?_⟩
  · unfold jobStatus
    rw [if_pos (hany.mpr h)]
  · unfold jobStatus
    rw [if_neg (fun hx => h (hany.mp hx)), if_pos (hall.mpr hc)]
  · unfold jobStatus
    rw [if_neg (fun hx => h (hany.mp hx)), if_neg (fun hx => hc (hall.mp hx)),
      if_pos (hrun.mpr hr)]
  · unfold jobStatus
    rw [if_neg (fun hx => h (hany.mp hx)), if_neg (fun hx => hc (hall.mp hx)),
      if_neg (fun hx => hr (hrun.mp hx))]

/-- Witness for C3: the aggregate applied at a concrete two-chunk job with
one terminally failed chunk. -/
theorem C3_jobStatus_aggregate_witness :
    jobStatus 3 [⟨ChunkState.failed, 3⟩, ⟨ChunkState.running, 1⟩] =
      ChunkState.failed := by
  exact (C3_jobStatus_aggregate 3 [⟨ChunkState.failed, 3⟩, ⟨ChunkState.running, 1⟩]).1
    ⟨⟨ChunkState.failed, 3⟩, by decide, rfl, by decide⟩

/-- Modelled from the spec: the chunk's stored verification field
(pending | valid | invalid, §3). -/
inductive VerState
  | pending
  | valid
  | invalid
  deriving DecidableEq, Repr

/-- Modelled from the spec: the classification produced by the Verification
Pipeline for one completed attempt (§4.3). -/
inductive VerOutcome
  | valid
  | invalid
  | indeterminate
  deriving DecidableEq, Repr

/-- Modelled from the spec: the result of independently fetching and hashing
the artifact named by a receipt — either the recomputed hash, or the artifact
was unreachable. -/
inductive FetchResult
  | fetched (sha256 : List Char)
  | unreachable
  deriving DecidableEq, Repr

/-- Modelled from the spec: step (2)–(3) of the Verification Pipeline (§4.3):
compare the independently computed hash against the receipt's
`claimed_sha256` byte for byte; `valid` on exact match, `invalid` on any
mismatch, `indeterminate` when the artifact is unreachable. -/
def classify (fr : FetchResult) (claimedSha256 : List Char) : VerOutcome :=
  match fr with
  | FetchResult.fetched h => if h = claimedSha256 then VerOutcome.valid else VerOutcome.invalid
  | FetchResult.unreachable => VerOutcome.indeterminate

/-- Modelled from the spec: the mutable per-chunk record handled by the
Retry/Resend Controller (§3, §4.4). -/
structure Chunk where
  status : ChunkState
  attemptCount : ℕ
  generation : ℕ
  verification : VerState
  failureReason : Option (List Char)
  deriving DecidableEq, Repr

/-- Modelled from the spec: the derived signal the Reconciliation Loop hands
the Retry/Resend Controller for one chunk on one tick: nothing new, a
completion claim with its verification outcome, or an execution failure
(error or timeout) with its reason. -/
inductive Obs
  | idle
  | completionClaim (v : VerOutcome)
  | execFailure (reason : List Char)
  deriving DecidableEq, Repr

/-- Modelled from the spec: a chunk is in a terminal state when it is
`completed`, or `failed` with its attempt budget exhausted (§3 lifecycle). -/
def isTerminal (maxAttempts : ℕ) (c : Chunk) : Bool :=
  decide (c.status = ChunkState.completed) ||
    (decide (c.status = ChunkState.failed) && decide (maxAttempts ≤ c.attemptCount))

/-- Modelled from the spec: dispatch of a queued chunk (§4.4): the controller
records the new assignment and increments `attempt_count`; the assignment's
`generation` equals `attempt_count` at issuance, and `failure_reason` is
cleared on reissue start. -/
def dispatch (c : Chunk) : Chunk :=
  { c with status := ChunkState.running, attemptCount := c.attemptCount + 1,
           generation := c.attemptCount + 1, failureReason := none }

/-- Modelled from the spec: a failing attempt (§4.4): terminal `failed` when
`attempt_count ≥ max_attempts`, otherwise the chunk is immediately reissued
(back to `queued`); the failure reason is recorded either way. -/
def failAttempt (maxAttempts : ℕ) (c : Chunk) (reason : List Char) (v : VerState) : Chunk :=
  if maxAttempts ≤ c.attemptCount then
    { c with status := ChunkState.failed, failureReason := some reason, verification := v }
  else
    { c with status := ChunkState.queued, failureReason := some reason, verification := v }

/-- Modelled from the spec: the failure reason recorded for a verification
mismatch, distinct from an execution failure (§7). -/
def verificationMismatchReason : List Char := ("verification mismatch").data

/-- Modelled from the spec: one reconciliation tick of the Retry/Resend
Controller for one chunk (§4.4): terminal states are left untouched; a queued
chunk is dispatched; a non-terminal failed chunk is reissued; a running chunk
transitions on its completion claim (valid → completed, invalid → failing
attempt, indeterminate → no transition) or execution failure, and otherwise
stays running. -/
def tickChunk (maxAttempts : ℕ) (c : Chunk) (o : Obs) : Chunk :=
  if isTerminal maxAttempts c then c
  else
    match c.status, o with
    | ChunkState.queued, _ => dispatch c
    | ChunkState.failed, _ => { c with status := ChunkState.queued }
    | ChunkState.running, Obs.completionClaim VerOutcome.valid =>
        { c with status := ChunkState.completed, verification := VerState.valid }
    | ChunkState.running, Obs.completionClaim VerOutcome.invalid =>
        failAttempt maxAttempts c verificationMismatchReason VerState.invalid
    | ChunkState.running, Obs.completionClaim VerOutcome.indeterminate => c
    | ChunkState.running, Obs.execFailure r => failAttempt maxAttempts c r c.verification
    | ChunkState.running, Obs.idle => c
    | ChunkState.completed, _ => c

/-- Modelled from the spec: a sequence of reconciliation ticks applied to one
chunk (§5). -/
def runTicks (maxAttempts : ℕ) (c : Chunk) (os : List Obs) : Chunk :=
  os.foldl (tickChunk maxAttempts) c

theorem tickChunk_of_terminal (maxAttempts : ℕ) (c : Chunk) (o : Obs)
    (h : isTerminal maxAttempts c = true) : tickChunk maxAttempts c o = c := by
  unfold tickChunk
  rw [if_pos h]

theorem runTicks_of_terminal (maxAttempts : ℕ) (c : Chunk) (os : List Obs)
    (h : isTerminal maxAttempts c = true) : runTicks maxAttempts c os = c := by
  induction os with
  | nil => rfl
  | cons o os ih =>
    unfold runTicks
    rw [List.foldl_cons, tickChunk_of_terminal maxAttempts c o h]
    exact ih

theorem tickChunk_attempt_mono (maxAttempts : ℕ) (c : Chunk) (o : Obs) :
    c.attemptCount ≤ (tickChunk maxAttempts c o).attemptCount := by
  unfold tickChunk
  split
  · exact Nat.le_refl _
  · split <;> simp [dispatch, failAttempt] <;> split_ifs <;> simp

theorem runTicks_attempt_mono (maxAttempts : ℕ) (os : List Obs) (c : Chunk) :
    c.attemptCount ≤ (runTicks maxAttempts c os).attemptCount := by
  induction os generalizing c with
  | nil => exact Nat.le_refl _
  | cons o os ih =>
    rw [runTicks, List.foldl_cons]
    exact le_trans (tickChunk_attempt_mono maxAttempts c o) (ih (tickChunk maxAttempts c o))

/-- C4: the Verification Pipeline classifies a completed attempt `valid`
exactly when the independently computed hash equals the receipt's
`claimed_sha256`, `invalid` on any mismatch (which counts against
`max_attempts`: with the budget exhausted the chunk goes terminally
`failed`), and `indeterminate` when the artifact is unreachable; an
indeterminate outcome causes no chunk transition and consumes no attempt —
the tick leaves the chunk exactly as it was. -/
theorem C4_verification_classify (h claimedSha256 : List Char) (maxAttempts : ℕ) (c : Chunk) :
    (classify (FetchResult.fetched h) claimedSha256 = VerOutcome.valid ↔ h = claimedSha256) ∧
    (classify (FetchResult.fetched h) claimedSha256 = VerOutcome.invalid ↔ h ≠ claimedSha256) ∧
    classify FetchResult.unreachable claimedSha256 = VerOutcome.indeterminate ∧
    (c.status = ChunkState.running →
      tickChunk maxAttempts c (Obs.completionClaim VerOutcome.indeterminate) = c) ∧
    (c.status = ChunkState.running → maxAttempts ≤ c.attemptCount →
      (tickChunk maxAttempts c (Obs.completionClaim VerOutcome.invalid)).status =
        ChunkState.failed) := by
  refine ⟨?_, ?_, rfl, ?_, ?_⟩
  · by_cases heq : h = claimedSha256 <;> simp [classify, heq]
  · by_cases heq : h = claimedSha256 <;> simp [classify, heq]
  · intro hrun
    obtain ⟨st, ac, g, v, fr⟩ := c
    simp only at hrun
    subst hrun
    simp [tickChunk, isTerminal]
  · intro hrun hbudget
    obtain ⟨st, ac, g, v, fr⟩ := c
    simp only at hrun hbudget
    subst hrun
    simp [tickChunk, isTerminal, failAttempt, hbudget]

/-- Witness for C4: exact hash match classifies valid, a mismatch classifies
invalid, and an indeterminate verification leaves a concrete running chunk
untouched. -/
theorem C4_verification_classify_witness :
    classify (FetchResult.fetched (['a', 'b'])) (['a', 'b']) = VerOutcome.valid ∧
    classify (FetchResult.fetched (['a', 'b'])) (['x'])= VerOutcome.invalid ∧
    tickChunk 3 ⟨ChunkState.running, 1, 1, VerState.pending, none⟩
        (Obs.completionClaim VerOutcome.indeterminate) =
      ⟨ChunkState.running, 1, 1, VerState.pending, none⟩ := by
  refine ⟨(C4_verification_classify (['a', 'b']) (['a', 'b']) 3
      ⟨ChunkState.running, 1, 1, VerState.pending, none⟩).1.mpr rfl,
    (C4_verification_classify (['a', 'b']) (['x']) 3
      ⟨ChunkState.running, 1, 1, VerState.pending, none⟩).2.1.mpr (by decide),
    (C4_verification_classify (['a', 'b']) (['x']) 3
      ⟨ChunkState.running, 1, 1, VerState.pending, none⟩).2.2.2.1 rfl⟩

/-- C5: terminal states are absorbing across any sequence of reconciliation
ticks: a chunk that reached `completed` stays `completed`, and a terminally
failed chunk (budget exhausted) is left entirely untouched — it is never
reissued on any subsequent tick. -/
theorem C5_terminal_absorbing (maxAttempts : ℕ) (c : Chunk) (os : List Obs) :
    (c.status = ChunkState.completed →
      (runTicks maxAttempts c os).status = ChunkState.completed) ∧
    (c.status = ChunkState.failed → maxAttempts ≤ c.attemptCount →
      runTicks maxAttempts c os = c) := by
  refine ⟨fun h => ?_, fun h hb => ?_⟩
  · rw [runTicks_of_terminal maxAttempts c os (by simp [isTerminal, h])]
    exact h
  · exact runTicks_of_terminal maxAttempts c os (by simp [isTerminal, h, hb])

/-- Witness for C5: a concrete completed chunk survives a tick sequence, and
a concrete exhausted failed chunk (`max_attempts = 3`, three attempts spent)
is untouched by further ticks. -/
theorem C5_terminal_absorbing_witness :
    (runTicks 3 ⟨ChunkState.completed, 1, 1, VerState.valid, none⟩
        [Obs.idle, Obs.execFailure ([])]).status = ChunkState.completed ∧
    runTicks 3 ⟨ChunkState.failed, 3, 3, VerState.invalid, none⟩
        [Obs.idle, Obs.execFailure ([]), Obs.completionClaim VerOutcome.valid] =
      ⟨ChunkState.failed, 3, 3, VerState.invalid, none⟩ := by
  refine ⟨(C5_terminal_absorbing 3 ⟨ChunkState.completed, 1, 1, VerState.valid, none⟩
      [Obs.idle, Obs.execFailure ([])]).1 rfl,
    (C5_terminal_absorbing 3 ⟨ChunkState.failed, 3, 3, VerState.invalid, none⟩
      [Obs.idle, Obs.execFailure ([]), Obs.completionClaim VerOutcome.valid]).2 rfl
      (by decide)⟩

/-- C6: `attempt_count` is non-decreasing: no controller operation ever
decrements it, over a single tick or over any sequence of ticks; and each
dispatch increments it by exactly one, with the new assignment's generation
equal to the attempt count at issuance. -/
theorem C6_attemptCount_monotone (maxAttempts : ℕ) (c : Chunk) (o : Obs) (os : List Obs) :
    c.attemptCount ≤ (tickChunk maxAttempts c o).attemptCount ∧
    c.attemptCount ≤ (runTicks maxAttempts c os).attemptCount ∧
    (dispatch c).attemptCount = c.attemptCount + 1 ∧
    (dispatch c).generation = (dispatch c).attemptCount := by
  exact ⟨tickChunk_attempt_mono maxAttempts c o,
    runTicks_attempt_mono maxAttempts os c, rfl, rfl⟩

/-- Modelled from the spec: a job submission request (§6):
`{job_id?, input_uri, output_uri, container_image, worker_label?, num_chunks,
chunk_range}`. -/
structure SubmitRequest where
  job_id : Option (List Char)
  input_uri : List Char
  output_uri : List Char
  container_image : List Char
  worker_label : Option (List Char)
  num_chunks : ℤ
  range_start : ℤ
  range_end : ℤ
  deriving DecidableEq, Repr

/-- Modelled from the spec: one stored chunk record (§3), created at job
submission with status queued, zero attempts and pending verification. -/
structure StoredChunk where
  chunk_id : ℕ
  range : ℤ × ℤ
  status : ChunkState
  attemptCount : ℕ
  failureReason : Option (List Char)
  verification : VerState
  deriving DecidableEq, Repr

/-- Modelled from the spec: a stored job record (§3). -/
structure Job where
  job_id : List Char
  input_uri : List Char
  output_uri : List Char
  container_image : List Char
  worker_label : Option (List Char)
  num_chunks : ℕ
  chunk_range : ℤ × ℤ
  created_at : ℕ
  chunks : List StoredChunk
  deriving DecidableEq, Repr

/-- Modelled from the spec: the shared job table, keyed by `job_id` (§5). -/
structure Store where
  jobs : List (List Char × Job)
  deriving DecidableEq, Repr

/-- Modelled from the spec: the chunk records created at submission for the
balanced partition of the job range. -/
def mkChunks (s e : ℤ) (n : ℕ) : List StoredChunk :=
  (partitionRanges s e n).enum.map (fun p =>
    ⟨p.1, p.2, ChunkState.queued, 0, none, VerState.pending⟩)

/-- Modelled from the spec: `SubmitJob` (§6): rejects the submission
synchronously with `InvalidPartition` when `num_chunks ≤ 0` or
`num_chunks > len(range)`, and with `DuplicateJobId` when the job id already
exists; on rejection the store is returned unchanged and no job or chunks
are created. `genId` stands for the generated id used when the caller
supplies none, `now` for the creation timestamp. -/
def submitJob (st : Store) (req : SubmitRequest) (genId : List Char) (now : ℕ) :
    Store × Except SubmitError (List Char) :=
  if req.num_chunks ≤ 0 ∨ req.range_end - req.range_start < req.num_chunks then
    (st, Except.error SubmitError.invalidPartition)
  else
    let id := req.job_id.getD genId
    if st.jobs.any (fun p => decide (p.1 = id)) then
      (st, Except.error SubmitError.duplicateJobId)
    else
      let job : Job :=
        { job_id := id, input_uri := req.input_uri, output_uri := req.output_uri,
          container_image := req.container_image, worker_label := req.worker_label,
          num_chunks := req.num_chunks.toNat,
          chunk_range := (req.range_start, req.range_end), created_at := now,
          chunks := mkChunks req.range_start req.range_end req.num_chunks.toNat }
      (⟨st.jobs ++ [(id, job)]⟩, Except.ok id)

/-- C7: `SubmitJob` rejects synchronously with `InvalidPartition` when
`num_chunks ≤ 0` or `num_chunks > len(chunk_range)`, and with
`DuplicateJobId` when the supplied `job_id` already exists; in both cases
the returned store is exactly the input store — no job and no chunks are
created. -/
theorem C7_submitJob_rejects (st : Store) (req : SubmitRequest) (genId : List Char) (now : ℕ) :
    ((req.num_chunks ≤ 0 ∨ req.range_end - req.range_start < req.num_chunks) →
      submitJob st req genId now = (st, Except.error SubmitError.invalidPartition)) ∧
    (¬(req.num_chunks ≤ 0 ∨ req.range_end - req.range_start < req.num_chunks) →
      ∀ id, req.job_id = some id → (∃ j, (id, j) ∈ st.jobs) →
      submitJob st req genId now = (st, Except.error SubmitError.duplicateJobId)) := by
  refine ⟨fun h => ?_, fun h id hid ⟨j, hj⟩ => ?_⟩
  · unfold submitJob
    rw [if_pos h]
  · unfold submitJob
    rw [if_neg h]
    have hany : st.jobs.any (fun p => decide (p.1 = req.job_id.getD genId)) = true := by
      rw [List.any_eq_true]
      exact ⟨(id, j), hj, by simp [hid]⟩
    simp only [hid, Option.getD_some] at hany ⊢
    rw [if_pos hany]

/-- Witness for C7: a concrete bad partition is rejected with
`InvalidPartition`, and a concrete duplicate id with `DuplicateJobId`, both
leaving the one-job store unchanged. -/
theorem C7_submitJob_rejects_witness :
    submitJob ⟨[]⟩
        ⟨none, [], [], [], none, 0, 0, 10⟩ (['j']) 0 =
      (⟨[]⟩, Except.error SubmitError.invalidPartition) ∧
    submitJob ⟨[((['j']), ⟨['j'], [], [], [], none, 1, (0, 1), 0, []⟩)]⟩
        ⟨some (['j']), [], [], [], none, 1, 0, 10⟩ (['k']) 0 =
      (⟨[((['j']), ⟨['j'], [], [], [], none, 1, (0, 1), 0, []⟩)]⟩,
        Except.error SubmitError.duplicateJobId) := by
  refine ⟨(C7_submitJob_rejects ⟨[]⟩ ⟨none, [], [], [], none, 0, 0, 10⟩ (['j']) 0).1
      (Or.inl (by decide)),
    (C7_submitJob_rejects ⟨[((['j']), ⟨['j'], [], [], [], none, 1, (0, 1), 0, []⟩)]⟩
        ⟨some (['j']), [], [], [], none, 1, 0, 10⟩ (['k']) 0).2
      (by decide) (['j']) rfl
      ⟨⟨['j'], [], [], [], none, 1, (0, 1), 0, []⟩, by decide⟩⟩

/-- The chunk record entry exposed by `GetJob` to the projection layer:
`{chunk_id, status, attempt_count, failure_reason, verification}` (§6). -/
structure ChunkRecordView where
  chunk_id : ℕ
  status : ChunkState
  attempt_count : ℕ
  failure_reason : Option (List Char)
  verification : VerState
  deriving DecidableEq, Repr

/-- Modelled from the spec: the projection of one stored chunk onto the five
fields `GetJob` exposes. -/
def chunkRecordView (c : StoredChunk) : ChunkRecordView :=
  { chunk_id := c.chunk_id, status := c.status, attempt_count := c.attemptCount,
    failure_reason := c.failureReason, verification := c.verification }

/-- Modelled from the spec: `GetJob(job_id) → {metadata, [chunks]}` (§6),
`none` when the job id is unknown. -/
def getJob (st : Store) (id : List Char) : Option (Job × List ChunkRecordView) :=
  (st.jobs.find? (fun p => decide (p.1 = id))).map
    (fun p => (p.2, p.2.chunks.map chunkRecordView))

/-- C8: for every job id present in the store, `GetJob` returns the job
metadata together with one chunk entry per stored chunk, and every entry
carries the fields `chunk_id`, `status`, `attempt_count`, `failure_reason`
and `verification` of the underlying chunk. -/
theorem C8_getJob_fields (st : Store) (id : List Char) (p : List Char × Job)
    (hfind : st.jobs.find? (fun q => decide (q.1 = id)) = some p) :
    ∃ views, getJob st id = some (p.2, views) ∧
      views.length = p.2.chunks.length ∧
      ∀ i, ∀ hv : i < views.length, ∀ hc : i < p.2.chunks.length,
        (views.get ⟨i, hv⟩).chunk_id = (p.2.chunks.get ⟨i, hc⟩).chunk_id ∧
        (views.get ⟨i, hv⟩).status = (p.2.chunks.get ⟨i, hc⟩).status ∧
        (views.get ⟨i, hv⟩).attempt_count = (p.2.chunks.get ⟨i, hc⟩).attemptCount ∧
        (views.get ⟨i, hv⟩).failure_reason = (p.2.chunks.get ⟨i, hc⟩).failureReason ∧
        (views.get ⟨i, hv⟩).verification = (p.2.chunks.get ⟨i, hc⟩).verification := by
  refine ⟨p.2.chunks.map chunkRecordView, ?_, by simp, ?_⟩
  · unfold getJob
    rw [hfind]
    rfl
  · intro i hv hc
    simp [chunkRecordView]

/-- Witness for C8: `GetJob` applied to a concrete one-job store whose job
holds one chunk. -/
theorem C8_getJob_fields_witness :
    ∃ views,
      getJob ⟨[((['j']),
          ⟨['j'], [], [], [], none, 1, (0, 1), 0,
            [⟨0, (0, 1), ChunkState.queued, 0, none, VerState.pending⟩]⟩)]⟩ (['j']) =
        some (⟨['j'], [], [], [], none, 1, (0, 1), 0,
          [⟨0, (0, 1), ChunkState.queued, 0, none, VerState.pending⟩]⟩, views) ∧
      views.length = 1 := by
  obtain ⟨views, hget, hlen, -⟩ := C8_getJob_fields
    ⟨[((['j']),
        ⟨['j'], [], [], [], none, 1, (0, 1), 0,
          [⟨0, (0, 1), ChunkState.queued, 0, none, VerState.pending⟩]⟩)]⟩ (['j'])
    ((['j']),
      ⟨['j'], [], [], [], none, 1, (0, 1), 0,
        [⟨0, (0, 1), ChunkState.queued, 0, none, VerState.pending⟩]⟩) rfl
  exact ⟨views, hget, hlen⟩

/-- From `src/unnamed/part_001` (`escapeHtml`): JavaScript
`String.prototype.replaceAll` with a single-character pattern, on strings
embedded as lists of characters — every occurrence of the character `pat` is
replaced by `rep`. -/
def replaceAllChar (pat : Char) (rep : List Char) : List Char → List Char
  | [] => []
  | c :: cs => (if c = pat then rep else [c]) ++ replaceAllChar pat rep cs

/-- From `src/unnamed/part_001` (`escapeHtml`): replaces, in order, the
ampersand first and then the four other HTML-special characters, each by its
entity. -/
def escapeHtml (s : List Char) : List Char :=
  replaceAllChar '\'' (("&#039;").data)
    (replaceAllChar '"' (("&quot;").data)
      (replaceAllChar '>' (("&gt;").data)
        (replaceAllChar '<' (("&lt;").data)
          (replaceAllChar '&' (("&amp;").data) s))))

/-- The per-character entity table that `escapeHtml` is claimed to apply:
each of the five HTML-special characters maps to its entity, every other
character to itself. -/
def htmlEntity (c : Char) : List Char :=
  if c = '&' then ("&amp;").data
  else if c = '<' then ("&lt;").data
  else if c = '>' then ("&gt;").data
  else if c = '"' then ("&quot;").data
  else if c = '\'' then ("&#039;").data
  else [c]

/-- The character-wise entity expansion of a whole string; `escapeHtml`
coincides with it because the ampersand is replaced first, so entities
introduced by later replacements are never re-escaped. -/
def expandEntities : List Char → List Char
  | [] => []
  | c :: cs => htmlEntity c ++ expandEntities cs

/-- From `src/unnamed/part_001` (`statusPill`): the status pill HTML.  The
raw status is interpolated into the `class` attribute (via `cls`), the
escaped status into the element text. -/
def statusPill (status : List Char) : List Char :=
  ("<span class=\"status-pill status-").data ++ status ++ ("\">").data ++
    escapeHtml status ++ ("</span>").data

/-- The status pill as the specification sentence describes it — every
interpolation of the status passes through `escapeHtml`.  Stated from the
spec claim's words, for comparison with the source's `statusPill`. -/
def statusPillAllEscaped (status : List Char) : List Char :=
  ("<span class=\"status-pill status-").data ++ escapeHtml status ++ ("\">").data ++
    escapeHtml status ++ ("</span>").data

theorem replaceAllChar_append (pat : Char) (rep a b : List Char) :
    replaceAllChar pat rep (a ++ b) =
      replaceAllChar pat rep a ++ replaceAllChar pat rep b := by
  induction a with
  | nil => rfl
  | cons c cs ih =>
    simp only [List.cons_append, replaceAllChar]
    rw [show cs.append b = cs ++ b from rfl, ih, List.append_assoc]

theorem escapeHtml_append (a b : List Char) :
    escapeHtml (a ++ b) = escapeHtml a ++ escapeHtml b := by
  unfold escapeHtml
  simp only [replaceAllChar_append]

theorem escapeHtml_single (c : Char) : escapeHtml [c] = htmlEntity c := by
  by_cases h1 : c = '&'
  · subst h1; rfl
  by_cases h2 : c = '<'
  · subst h2; rfl
  by_cases h3 : c = '>'
  · subst h3; rfl
  by_cases h4 : c = '"'
  · subst h4; rfl
  by_cases h5 : c = '\''
  · subst h5; rfl
  simp [escapeHtml, replaceAllChar, htmlEntity, h1, h2, h3, h4, h5]

theorem escapeHtml_eq_expandEntities (s : List Char) :
    escapeHtml s = expandEntities s := by
  induction s with
  | nil => rfl
  | cons c cs ih =>
    have hsplit : c :: cs = [c] ++ cs := rfl
    rw [hsplit, escapeHtml_append, escapeHtml_single, ih]
    rfl

theorem htmlEntity_no_special (a c : Char) (h : c ∈ htmlEntity a) :
    c ≠ '<' ∧ c ≠ '>' ∧ c ≠ '"' ∧ c ≠ '\'' := by
  unfold htmlEntity at h
  split_ifs at h with h1 h2 h3 h4 h5
  · rw [show ("&amp;").data = ['&', 'a', 'm', 'p', ';'] from rfl] at h
    fin_cases h <;> exact (by decide)
  · rw [show ("&lt;").data = ['&', 'l', 't', ';'] from rfl] at h
    fin_cases h <;> exact (by decide)
  · rw [show ("&gt;").data = ['&', 'g', 't', ';'] from rfl] at h
    fin_cases h <;> exact (by decide)
  · rw [show ("&quot;").data = ['&', 'q', 'u', 'o', 't', ';'] from rfl] at h
    fin_cases h <;> exact (by decide)
  · rw [show ("&#039;").data = ['&', '#', '0', '3', '9', ';'] from rfl] at h
    fin_cases h <;> exact (by decide)
  · rw [List.mem_singleton] at h
    subst h
    exact ⟨h2, h3, h4, h5⟩

theorem expandEntities_no_special (s : List Char) (c : Char) (h : c ∈ expandEntities s) :
    c ≠ '<' ∧ c ≠ '>' ∧ c ≠ '"' ∧ c ≠ '\'' := by
  induction s with
  | nil => cases h
  | cons a as ih =>
    unfold expandEntities at h
    rcases List.mem_append.mp h with ha | has
    · exact htmlEntity_no_special a c ha
    · exact ih has

theorem escapeHtml_count_special (s : List Char) (c : Char)
    (hc : c = '<' ∨ c = '>' ∨ c = '"' ∨ c = '\'') : (escapeHtml s).count c = 0 := by
  rw [List.count_eq_zero]
  intro hm
  have hns := expandEntities_no_special s c (escapeHtml_eq_expandEntities s ▸ hm)
  rcases hc with rfl | rfl | rfl | rfl
  · exact hns.1 rfl
  · exact hns.2.1 rfl
  · exact hns.2.2.1 rfl
  · exact hns.2.2.2 rfl

/-- C9 (amended): `escapeHtml` replaces every occurrence of the five
HTML-special characters by its entity, ampersand first, so the result is the
character-wise entity expansion (never double-escaped) and contains no
literal `<`, `>`, `"` or apostrophe.  The listed fields pass through
`escapeHtml` at their element-text interpolation sites, but not at attribute
sites: `statusPill` interpolates the raw status into the pill's `class`
attribute, so every `<` or `"` of the status reaches the rendered HTML
unescaped, on top of the fixed template's own two. -/
theorem C9_escapeHtml_amended (s : List Char) :
    escapeHtml s = expandEntities s ∧
    (∀ c ∈ escapeHtml s, c ≠ '<' ∧ c ≠ '>' ∧ c ≠ '"' ∧ c ≠ '\'') ∧
    statusPill s = ("<span class=\"status-pill status-").data ++ s ++ ("\">").data ++
      escapeHtml s ++ ("</span>").data ∧
    (statusPill s).count '<' = 2 + s.count '<' ∧
    (statusPill s).count '"' = 2 + s.count '"' := by
  refine ⟨escapeHtml_eq_expandEntities s, ?_, rfl, ?_, ?_⟩
  · intro c hm
    exact expandEntities_no_special s c (escapeHtml_eq_expandEntities s ▸ hm)
  · unfold statusPill
    simp only [List.count_append]
    rw [escapeHtml_count_special s '<' (Or.inl rfl)]
    rw [show ((("<span class=\"status-pill status-").data).count '<') = 1 from rfl]
    rw [show ((("\">").data).count '<') = 0 from rfl]
    rw [show ((("</span>").data).count '<') = 1 from rfl]
    omega
  · unfold statusPill
    simp only [List.count_append]
    rw [escapeHtml_count_special s '"' (Or.inr (Or.inr (Or.inl rfl)))]
    rw [show ((("<span class=\"status-pill status-").data).count '"') = 1 from rfl]
    rw [show ((("\">").data).count '"') = 1 from rfl]
    rw [show ((("</span>").data).count '"') = 0 from rfl]
    omega

/-- Witness for C9: the amended theorem applied at the concrete status
`"<"`, whose escape is `&lt;` — the member `&` of the escaped text is not a
special character. -/
theorem C9_escapeHtml_amended_witness :
    escapeHtml (['<']) = expandEntities (['<']) ∧
    ('&' ≠ '<' ∧ '&' ≠ '>' ∧ '&' ≠ '"' ∧ '&' ≠ '\'') ∧
    (statusPill (['<'])).count '<' = 2 + (List.count '<' (['<'])) := by
  exact ⟨(C9_escapeHtml_amended (['<'])).1,
    (C9_escapeHtml_amended (['<'])).2.1 '&' (by decide),
    (C9_escapeHtml_amended (['<'])).2.2.2.1⟩

/-- C9 counterexample: at the concrete status consisting of one double
quote, the rendered pill differs from the all-interpolations-escaped pill
the claim describes — the `class` attribute receives the raw quote. -/
theorem C9_statusPill_counterexample :
    statusPill (['"']) ≠ statusPillAllEscaped (['"']) := by decide

/-- From `src/unnamed/part_001` (`handleJobSubmit`): the JavaScript
whitespace test used by `String.prototype.trim`, restricted to the four
common whitespace characters. -/
def jsWhitespace (c : Char) : Bool :=
  decide (c = ' ') || decide (c = '\t') || decide (c = '\n') || decide (c = '\r')

/-- From `src/unnamed/part_001` (`handleJobSubmit`): JavaScript
`String.prototype.trim` — drop leading and trailing whitespace. -/
def jsTrim (s : List Char) : List Char :=
  ((s.dropWhile jsWhitespace).reverse.dropWhile jsWhitespace).reverse

/-- From `src/unnamed/part_001` (`handleJobSubmit`): the submission payload
built from the form field values.  `jsNumber` stands for the JavaScript
`Number` conversion; it is only reached when the field is non-empty, because
the code's `value || default` short-circuits the empty string to the numeric
default before `Number` is applied.  A blank `job_id` or `worker_label`
becomes `undefined` (here `none`) through `trim() || undefined`. -/
def buildJobPayload (jsNumber : List Char → ℤ)
    (jobIdV inputUriV outputUriV containerImageV workerLabelV numChunksV
      rangeStartV rangeEndV : List Char) : SubmitRequest :=
  { job_id := if jsTrim jobIdV = [] then none else some (jsTrim jobIdV),
    input_uri := jsTrim inputUriV,
    output_uri := jsTrim outputUriV,
    container_image := jsTrim containerImageV,
    worker_label := if jsTrim workerLabelV = [] then none else some (jsTrim workerLabelV),
    num_chunks := if numChunksV = [] then 1 else jsNumber numChunksV,
    range_start := if rangeStartV = [] then 0 else jsNumber rangeStartV,
    range_end := if rangeEndV = [] then 0 else jsNumber rangeEndV }

/-- C10: with every optional field blank, the payload defaults `num_chunks`
to 1, both range bounds to 0, and omits `job_id` and `worker_label`, so a
fully blank numeric form always submits `num_chunks = 1` over the
zero-length range `[0, 0)` — whatever the `Number` conversion does on
non-empty strings. -/
theorem C10_blank_form_defaults (jsNumber : List Char → ℤ)
    (inputUriV outputUriV containerImageV : List Char) :
    buildJobPayload jsNumber [] inputUriV outputUriV containerImageV [] [] [] [] =
      { job_id := none, input_uri := jsTrim inputUriV,
        output_uri := jsTrim outputUriV,
        container_image := jsTrim containerImageV, worker_label := none,
        num_chunks := 1, range_start := 0, range_end := 0 } ∧
    (buildJobPayload jsNumber [] inputUriV outputUriV containerImageV
        [] [] [] []).range_end -
      (buildJobPayload jsNumber [] inputUriV outputUriV containerImageV
        [] [] [] []).range_start = 0 := by
  exact ⟨rfl, rfl⟩

end AIGenie
